import Mathlib

/-!
# Appliance access simulator (`vapi/appliance/simulator/simulator.go`)

A shallow embedding of the four access handlers (console CLI, DCUI, SSH and
shell) of the appliance API simulator, and the properties of its
specification.

The handler is a Go pointer receiver mutated in place; here every handler
function takes the handler state and returns the new state together with the
single call it makes on the `http.ResponseWriter` and the lines it logs.
The JSON decoder of the Go standard library is a parameter of the model
(`JsonDecoders`): every theorem holds for every decoder.
-/

namespace Simulator

/-! ## Types declared outside the file -/

/-- Modelled from the spec: the struct `consolecli.Access` is declared in
package `vapi/appliance/access/consolecli`; the spec gives it one boolean field
`enabled`. -/
structure consolecli.Access where
  Enabled : Bool
deriving DecidableEq, Repr

/-- Modelled from the spec: the struct `dcui.Access` is declared in package
`vapi/appliance/access/dcui`; the spec gives it one boolean field `enabled`. -/
structure dcui.Access where
  Enabled : Bool
deriving DecidableEq, Repr

/-- Modelled from the spec: the struct `ssh.Access` is declared in package
`vapi/appliance/access/ssh`; the spec gives it one boolean field `enabled`. -/
structure ssh.Access where
  Enabled : Bool
deriving DecidableEq, Repr

/-- Modelled from the spec: the struct `shell.Access` is declared in package
`vapi/appliance/access/shell`; the spec gives it a boolean field `enabled` and
an integer field `timeout` (seconds). The handler only copies the timeout, so
the Go `int` is an `Int` here. -/
structure shell.Access where
  Enabled : Bool
  Timeout : Int
deriving DecidableEq, Repr

/-- The request body, as the bytes read from `request.Body`. -/
abbrev Body := List Nat

/-- The part of `http.Request` the handlers read. -/
structure Request where
  Method : String
  RequestURI : String
  Body : Body
deriving DecidableEq, Repr

/-- The constant `http.MethodGet`. -/
def MethodGet : String := "GET"

/-- The constant `http.MethodPut`. -/
def MethodPut : String := "PUT"

/-- The constant `http.StatusOK`. -/
def StatusOK : Nat := 200

/-- The constant `http.StatusNoContent`. -/
def StatusNoContent : Nat := 204

/-- The constant `http.StatusNotFound`. -/
def StatusNotFound : Nat := 404

/-- The constant `http.StatusInternalServerError`. -/
def StatusInternalServerError : Nat := 500

/-- The call `json.NewDecoder(body).Decode(val)` of the Go standard library for
each of the four struct types that the handlers decode into: the decoded value,
or the text of the error. The target `val` is always a fresh zero value, so the
result depends on the body alone. -/
structure JsonDecoders where
  consolecli : Body → Except String consolecli.Access
  dcui : Body → Except String dcui.Access
  ssh : Body → Except String ssh.Access
  shell : Body → Except String shell.Access

/-! ## The handler state -/

/-- The struct `Handler` (simulator.go, lines 40-46). The field `URL` is a
`*url.URL`; `none` is the nil pointer. -/
structure Handler where
  URL : Option String
  consolecli : consolecli.Access
  dcui : dcui.Access
  ssh : ssh.Access
  shell : shell.Access
deriving DecidableEq, Repr

/-- The function `New` (simulator.go, lines 49-57): the argument is not used. -/
def New (_u : Option String) : Handler :=
  Handler.mk none
    (consolecli.Access.mk false)
    (dcui.Access.mk false)
    (ssh.Access.mk false)
    (shell.Access.mk false 0)

/-! ## What a handler does to the response writer -/

/-- The Go values that the handlers pass to `vapi.StatusOK` as `interface{}`:
a `bool` (lines 85, 102, 119) or a `shell.Access` (line 136). -/
inductive Value where
  | bool (b : Bool)
  | shellAccess (a : shell.Access)
deriving DecidableEq, Repr

/-- The one call each handler makes on its `http.ResponseWriter`: either
`vapi.StatusOK(writer, val)`, `writer.WriteHeader(statusCode)` or
`http.NotFound(writer, request)`. -/
inductive WriterCall where
  | StatusOK (val : Value)          -- vapi.StatusOK(writer, val)
  | WriteHeader (statusCode : Nat)  -- writer.WriteHeader(statusCode)
  | NotFound                        -- http.NotFound(writer, request)
deriving DecidableEq, Repr

/-- The result of handling one request: the handler state afterwards, the call
made on the response writer and the lines given to `log.Printf`. -/
structure Outcome where
  handler : Handler
  written : WriterCall
  logged : List String
deriving DecidableEq, Repr

/-- The function `Decode` (simulator.go, lines 72-80). Go returns a boolean and
fills `val`; here the decoded value is returned on success and `none` on
failure, with the line logged on failure. -/
def Decode {α : Type} (jsonDecode : Body → Except String α) (request : Request) :
    Option α × List String :=
  match jsonDecode request.Body with
  | Except.error err =>
      (none, [request.Method ++ " " ++ request.RequestURI ++ ": " ++ err])
  | Except.ok val => (some val, [])

/-- The method `Handler.decode` (simulator.go, lines 67-69). -/
def Handler.decode {α : Type} (_h : Handler) (jsonDecode : Body → Except String α)
    (request : Request) : Option α × List String :=
  Decode jsonDecode request

/-- The method `Handler.consoleCLIAccess` (simulator.go, lines 82-97). -/
def Handler.consoleCLIAccess (J : JsonDecoders) (h : Handler) (request : Request) : Outcome :=
  if request.Method = MethodGet then
    Outcome.mk h (WriterCall.StatusOK (Value.bool h.consolecli.Enabled)) []
  else if request.Method = MethodPut then
    match h.decode J.consolecli request with
    | (some input, log) =>
        Outcome.mk { h with consolecli := { h.consolecli with Enabled := input.Enabled } }
          (WriterCall.WriteHeader StatusNoContent) log
    | (none, log) => Outcome.mk h (WriterCall.WriteHeader StatusInternalServerError) log
  else
    Outcome.mk h WriterCall.NotFound []

/-- The method `Handler.dcuiAccess` (simulator.go, lines 99-114). -/
def Handler.dcuiAccess (J : JsonDecoders) (h : Handler) (request : Request) : Outcome :=
  if request.Method = MethodGet then
    Outcome.mk h (WriterCall.StatusOK (Value.bool h.dcui.Enabled)) []
  else if request.Method = MethodPut then
    match h.decode J.dcui request with
    | (some input, log) =>
        Outcome.mk { h with dcui := { h.dcui with Enabled := input.Enabled } }
          (WriterCall.WriteHeader StatusNoContent) log
    | (none, log) => Outcome.mk h (WriterCall.WriteHeader StatusInternalServerError) log
  else
    Outcome.mk h WriterCall.NotFound []

/-- The method `Handler.sshAccess` (simulator.go, lines 116-131). -/
def Handler.sshAccess (J : JsonDecoders) (h : Handler) (request : Request) : Outcome :=
  if request.Method = MethodGet then
    Outcome.mk h (WriterCall.StatusOK (Value.bool h.ssh.Enabled)) []
  else if request.Method = MethodPut then
    match h.decode J.ssh request with
    | (some input, log) =>
        Outcome.mk { h with ssh := { h.ssh with Enabled := input.Enabled } }
          (WriterCall.WriteHeader StatusNoContent) log
    | (none, log) => Outcome.mk h (WriterCall.WriteHeader StatusInternalServerError) log
  else
    Outcome.mk h WriterCall.NotFound []

/-- The method `Handler.shellAccess` (simulator.go, lines 133-149). -/
def Handler.shellAccess (J : JsonDecoders) (h : Handler) (request : Request) : Outcome :=
  if request.Method = MethodGet then
    Outcome.mk h (WriterCall.StatusOK (Value.shellAccess h.shell)) []
  else if request.Method = MethodPut then
    match h.decode J.shell request with
    | (some input, log) =>
        Outcome.mk
          { h with shell := { h.shell with Enabled := input.Enabled, Timeout := input.Timeout } }
          (WriterCall.WriteHeader StatusNoContent) log
    | (none, log) => Outcome.mk h (WriterCall.WriteHeader StatusInternalServerError) log
  else
    Outcome.mk h WriterCall.NotFound []

/-- The four paths registered by `Handler.Register` (simulator.go, lines 61-64):
`consolecli.Path`, `dcui.Path`, `ssh.Path` and `shell.Path`. The constants are
declared in the access packages; only their being four distinct routes is used. -/
inductive Resource where
  | consolecli
  | dcui
  | ssh
  | shell
deriving DecidableEq, Repr

/-- The method `Handler.Register` (simulator.go, lines 60-65): the handler
function bound to each path. -/
def Handler.Register (J : JsonDecoders) (h : Handler) : Resource → Request → Outcome
  | Resource.consolecli => h.consoleCLIAccess J
  | Resource.dcui => h.dcuiAccess J
  | Resource.ssh => h.sshAccess J
  | Resource.shell => h.shellAccess J

/-- The handler state after a sequence of requests, each sent to one of the
registered paths and handled one after the other. -/
def serveAll (J : JsonDecoders) (h : Handler) : List (Resource × Request) → Handler
  | [] => h
  | (r, request) :: rest => serveAll J (h.Register J r request).handler rest

/-! ## The response a writer call produces -/

/-- A JSON document. -/
inductive Json where
  | bool (b : Bool)
  | num (n : Int)
  | obj (fields : List (String × Json))

/-- Modelled from the spec: the encoding that `json.NewEncoder(w).Encode` gives
the values handed to the serializer. A Go `bool` is the JSON literal; the field
tags of `shell.Access` are declared outside the file, and the spec gives its
shape as an object with an `enabled` and a `timeout` member. -/
def encode : Value → Json
  | Value.bool b => Json.bool b
  | Value.shellAccess a =>
      Json.obj [("enabled", Json.bool a.Enabled), ("timeout", Json.num a.Timeout)]

/-- The body of a response. -/
inductive ResponseBody where
  | empty
  | json (doc : Json)
  | text (s : String)

/-- The status and body that reach the client. -/
structure Response where
  status : Nat
  body : ResponseBody

/-- Modelled from the spec: the helper `vapi.StatusOK` is defined in package
`vapi/simulator`, outside the file; the spec describes it as the
response-writing helper that serializes a value as JSON with status 200. -/
def vapiStatusOK (val : Value) : Response :=
  Response.mk StatusOK (ResponseBody.json (encode val))

/-- The response that a writer call produces. `WriteHeader` of the Go standard
library sends the status with no body, and `http.NotFound` replies 404 with a
fixed text. -/
def respond : WriterCall → Response
  | WriterCall.StatusOK val => vapiStatusOK val
  | WriterCall.WriteHeader statusCode => Response.mk statusCode ResponseBody.empty
  | WriterCall.NotFound => Response.mk StatusNotFound (ResponseBody.text "404 page not found\n")

/-- The response to one request on a registered path. -/
def Handler.response (J : JsonDecoders) (h : Handler) (r : Resource) (request : Request) :
    Response :=
  respond (h.Register J r request).written

/-- A GET request. -/
def getRequest (uri : String) (body : Body) : Request :=
  Request.mk MethodGet uri body

/-- A PUT request. -/
def putRequest (uri : String) (body : Body) : Request :=
  Request.mk MethodPut uri body

/-! ## Vocabulary of the specification -/

/-- The current setting of a resource, as the value its GET branch passes to
`vapi.StatusOK` (lines 85, 102, 119 and 136). -/
def Handler.setting (h : Handler) : Resource → Value
  | Resource.consolecli => Value.bool h.consolecli.Enabled
  | Resource.dcui => Value.bool h.dcui.Enabled
  | Resource.ssh => Value.bool h.ssh.Enabled
  | Resource.shell => Value.shellAccess h.shell

/-- The default of the specification: enabled is false, and the timeout of the
shell is 0. -/
def defaultSetting : Resource → Value
  | Resource.shell => Value.shellAccess (shell.Access.mk false 0)
  | _ => Value.bool false

/-- The setting that a request carries when it is a PUT whose body decodes
successfully for the resource (the enabled flag of the decoded value, and for
the shell its enabled flag and timeout); `none` for every other request. This
follows the words of the specification, not a handler. -/
def putValue (J : JsonDecoders) (r : Resource) (request : Request) : Option Value :=
  if request.Method = MethodPut then
    match r with
    | Resource.consolecli =>
        match J.consolecli request.Body with
        | Except.ok v => some (Value.bool v.Enabled)
        | Except.error _ => none
    | Resource.dcui =>
        match J.dcui request.Body with
        | Except.ok v => some (Value.bool v.Enabled)
        | Except.error _ => none
    | Resource.ssh =>
        match J.ssh request.Body with
        | Except.ok v => some (Value.bool v.Enabled)
        | Except.error _ => none
    | Resource.shell =>
        match J.shell request.Body with
        | Except.ok v => some (Value.shellAccess (shell.Access.mk v.Enabled v.Timeout))
        | Except.error _ => none
  else none

/-- The settings written to a resource by a sequence of requests, oldest
first: one entry for each successfully decoded PUT sent to that resource. -/
def writesTo (J : JsonDecoders) (r : Resource) (reqs : List (Resource × Request)) : List Value :=
  reqs.filterMap fun x => if x.1 = r then putValue J r x.2 else none

/-- The setting of the most recent successfully decoded PUT to a resource in a
sequence of requests, if there is one. This follows the words of the
specification ("last PUT value wins"). -/
def lastPut (J : JsonDecoders) (r : Resource) (reqs : List (Resource × Request)) : Option Value :=
  (writesTo J r reqs).getLast?

/-- The JSON document that a handler hands over for serialization, when it
answers through `vapi.StatusOK`. -/
def servedJson (o : Outcome) : Option Json :=
  match o.written with
  | WriterCall.StatusOK val => some (encode val)
  | _ => none

/-- The boolean member `enabled` of a JSON object; `none` when the document is
not an object or has no such boolean member. -/
def enabledField : Json → Option Bool
  | Json.obj fields =>
      match fields.lookup "enabled" with
      | some (Json.bool b) => some b
      | _ => none
  | _ => none

/-- The integer member `timeout` of a JSON object. -/
def timeoutField : Json → Option Int
  | Json.obj fields =>
      match fields.lookup "timeout" with
      | some (Json.num n) => some n
      | _ => none
  | _ => none

/-! ## Concrete requests -/

/-- The bytes of the body `{"enabled":true}`. -/
def bodyEnabledTrue : Body :=
  [123, 34, 101, 110, 97, 98, 108, 101, 100, 34, 58, 116, 114, 117, 101, 125]

/-- The bytes of the body `{"enabled":false}`. -/
def bodyEnabledFalse : Body :=
  [123, 34, 101, 110, 97, 98, 108, 101, 100, 34, 58, 102, 97, 108, 115, 101, 125]

/-- The bytes of the body `{"enabled":true,"timeout":30}`. -/
def bodyShellThirty : Body :=
  [123, 34, 101, 110, 97, 98, 108, 101, 100, 34, 58, 116, 114, 117, 101, 44,
   34, 116, 105, 109, 101, 111, 117, 116, 34, 58, 51, 48, 125]

/-- The bytes of the body `not json`. -/
def bodyMalformed : Body := [110, 111, 116, 32, 106, 115, 111, 110]

/-- The text of the error that `encoding/json` reports for the body `not json`:
the `n` opens the literal `null`, and the `o` that follows is not its `u`. -/
def malformedError : String :=
  "invalid character \x27o\x27 in literal null (expecting \x27u\x27)"

/-- A table of the results of `encoding/json` at the four sample bodies, for a
struct with the single member `enabled`: the flag of the three well-formed
bodies (the member `timeout`, which the struct lacks, is skipped) and the error
of `bodyMalformed`. The table knows no other body and answers it with an error
of its own, which is not the answer of `encoding/json` for every such body; it
is applied at the sample bodies only. -/
def sampleEnabled (body : Body) : Except String Bool :=
  if body = bodyEnabledTrue then Except.ok true
  else if body = bodyEnabledFalse then Except.ok false
  else if body = bodyShellThirty then Except.ok true
  else if body = bodyMalformed then Except.error malformedError
  else Except.error "body outside the sample table"

/-- The decoders of the concrete requests below: the results of `encoding/json`
at the four sample bodies (a member that the body lacks keeps its zero value),
and the error of the table at every other body. It is applied at the sample
bodies only. -/
def sampleDecoders : JsonDecoders where
  consolecli body := (sampleEnabled body).map consolecli.Access.mk
  dcui body := (sampleEnabled body).map dcui.Access.mk
  ssh body := (sampleEnabled body).map ssh.Access.mk
  shell body :=
    if body = bodyShellThirty then Except.ok (shell.Access.mk true 30)
    else (sampleEnabled body).map fun b => shell.Access.mk b 0

/-! ## Auxiliary lemmas -/

/-- The method names GET and PUT differ. -/
theorem methodGet_ne_methodPut : MethodGet ≠ MethodPut := by decide

/-- The method names PUT and GET differ. -/
theorem methodPut_ne_methodGet : MethodPut ≠ MethodGet := by decide

/-- A GET leaves the handler as it is, hands the current setting to
`vapi.StatusOK` and logs nothing. -/
theorem register_get (J : JsonDecoders) (h : Handler) (r : Resource) (uri : String)
    (body : Body) :
    h.Register J r (getRequest uri body)
      = Outcome.mk h (WriterCall.StatusOK (h.setting r)) [] := by
  cases r <;>
    simp [Handler.Register, Handler.consoleCLIAccess, Handler.dcuiAccess, Handler.sshAccess,
      Handler.shellAccess, getRequest, Handler.setting, methodGet_ne_methodPut]

/-- One request changes the setting of a resource exactly when it is a
successfully decoded PUT to that resource, and then to the value it carries. -/
theorem setting_after_request (J : JsonDecoders) (h : Handler) (r target : Resource)
    (request : Request) :
    (h.Register J target request).handler.setting r
      = (if target = r then putValue J r request else none).getD (h.setting r) := by
  by_cases hget : request.Method = MethodGet
  · have hput : request.Method ≠ MethodPut := by
      rw [hget]; decide
    cases target <;> cases r <;>
      simp [Handler.Register, Handler.consoleCLIAccess, Handler.dcuiAccess, Handler.sshAccess,
        Handler.shellAccess, Handler.setting, putValue, hget, hput, methodGet_ne_methodPut, methodPut_ne_methodGet]
  · by_cases hput : request.Method = MethodPut
    · cases target
      · cases hd : J.consolecli request.Body <;> cases r <;>
          simp [Handler.Register, Handler.consoleCLIAccess, Handler.setting, putValue,
            Handler.decode, Decode, hget, hput, hd, methodPut_ne_methodGet]
      · cases hd : J.dcui request.Body <;> cases r <;>
          simp [Handler.Register, Handler.dcuiAccess, Handler.setting, putValue,
            Handler.decode, Decode, hget, hput, hd, methodPut_ne_methodGet]
      · cases hd : J.ssh request.Body <;> cases r <;>
          simp [Handler.Register, Handler.sshAccess, Handler.setting, putValue,
            Handler.decode, Decode, hget, hput, hd, methodPut_ne_methodGet]
      · cases hd : J.shell request.Body <;> cases r <;>
          simp [Handler.Register, Handler.shellAccess, Handler.setting, putValue,
            Handler.decode, Decode, hget, hput, hd, methodPut_ne_methodGet]
    · cases target <;> cases r <;>
        simp [Handler.Register, Handler.consoleCLIAccess, Handler.dcuiAccess, Handler.sshAccess,
          Handler.shellAccess, Handler.setting, putValue, hget, hput, methodGet_ne_methodPut, methodPut_ne_methodGet]

/-- After a sequence of requests the setting of a resource is the one carried
by the most recent successfully decoded PUT to it, or the setting before the
sequence when there is none. -/
theorem setting_serveAll (J : JsonDecoders) (r : Resource) (reqs : List (Resource × Request)) :
    ∀ h : Handler, (serveAll J h reqs).setting r = (lastPut J r reqs).getD (h.setting r) := by
  induction reqs with
  | nil => intro h; rfl
  | cons x rest ih =>
      intro h
      obtain ⟨target, request⟩ := x
      have hstep := setting_after_request J h r target request
      have hrest := ih (h.Register J target request).handler
      simp only [serveAll]
      rw [hrest, hstep]
      simp only [lastPut, writesTo, List.filterMap_cons] at *
      cases hx : (if target = r then putValue J r request else none) with
      | none => simp
      | some v => simp [List.getLast?_cons]

/-- A sequence of GET requests, whatever resources, URIs and bodies they name,
leaves the handler as it is. -/
theorem serveAll_gets (J : JsonDecoders) (gets : List (Resource × String × Body)) :
    ∀ h : Handler,
      serveAll J h (gets.map fun g => (g.1, getRequest g.2.1 g.2.2)) = h := by
  induction gets with
  | nil => intro h; rfl
  | cons g rest ih =>
      intro h
      simp only [List.map_cons, serveAll, register_get, ih]

/-! ## Properties of the specification -/

/-- C1: for each of the four resources, every handler state and every PUT body
that decodes successfully to a value `v`, handling the PUT and then a GET on
the same resource hands to `vapi.StatusOK`, and so yields in a 200 response,
the enabled flag of `v` (console-cli, dcui, ssh), and the enabled flag and the
timeout of `v` (shell). -/
theorem put_then_get_returns_put_value (J : JsonDecoders) (h : Handler)
    (putUri getUri : String) (body getBody : Body) :
    (∀ v : consolecli.Access, J.consolecli body = Except.ok v →
      ((h.consoleCLIAccess J (putRequest putUri body)).handler.consoleCLIAccess J
          (getRequest getUri getBody)).written = WriterCall.StatusOK (Value.bool v.Enabled) ∧
      (h.Register J Resource.consolecli (putRequest putUri body)).handler.response J
          Resource.consolecli (getRequest getUri getBody)
        = Response.mk 200 (ResponseBody.json (Json.bool v.Enabled))) ∧
    (∀ v : dcui.Access, J.dcui body = Except.ok v →
      ((h.dcuiAccess J (putRequest putUri body)).handler.dcuiAccess J
          (getRequest getUri getBody)).written = WriterCall.StatusOK (Value.bool v.Enabled) ∧
      (h.Register J Resource.dcui (putRequest putUri body)).handler.response J
          Resource.dcui (getRequest getUri getBody)
        = Response.mk 200 (ResponseBody.json (Json.bool v.Enabled))) ∧
    (∀ v : ssh.Access, J.ssh body = Except.ok v →
      ((h.sshAccess J (putRequest putUri body)).handler.sshAccess J
          (getRequest getUri getBody)).written = WriterCall.StatusOK (Value.bool v.Enabled) ∧
      (h.Register J Resource.ssh (putRequest putUri body)).handler.response J
          Resource.ssh (getRequest getUri getBody)
        = Response.mk 200 (ResponseBody.json (Json.bool v.Enabled))) ∧
    (∀ v : shell.Access, J.shell body = Except.ok v →
      ((h.shellAccess J (putRequest putUri body)).handler.shellAccess J
          (getRequest getUri getBody)).written
        = WriterCall.StatusOK (Value.shellAccess (shell.Access.mk v.Enabled v.Timeout)) ∧
      (h.Register J Resource.shell (putRequest putUri body)).handler.response J
          Resource.shell (getRequest getUri getBody)
        = Response.mk 200 (ResponseBody.json
            (Json.obj [("enabled", Json.bool v.Enabled), ("timeout", Json.num v.Timeout)]))) := by
  refine ⟨?_, ?_, ?_, ?_⟩ <;> intro v hv <;>
    simp [Handler.response, respond, vapiStatusOK, encode, StatusOK, Handler.Register,
      Handler.consoleCLIAccess, Handler.dcuiAccess, Handler.sshAccess, Handler.shellAccess,
      Handler.decode, Decode, putRequest, getRequest, methodPut_ne_methodGet, hv]

/-- C1 at a concrete input: on a new handler, a PUT of `{"enabled":true}` to ssh
and a PUT of `{"enabled":true,"timeout":30}` to shell are read back by a GET. -/
theorem put_then_get_returns_put_value_witness :
    sampleDecoders.ssh bodyEnabledTrue = Except.ok (ssh.Access.mk true) ∧
    ((New none).Register sampleDecoders Resource.ssh
        (putRequest "/ssh" bodyEnabledTrue)).handler.response sampleDecoders
        Resource.ssh (getRequest "/ssh" [])
      = Response.mk 200 (ResponseBody.json (Json.bool true)) ∧
    sampleDecoders.shell bodyShellThirty = Except.ok (shell.Access.mk true 30) ∧
    ((New none).Register sampleDecoders Resource.shell
        (putRequest "/shell" bodyShellThirty)).handler.response sampleDecoders
        Resource.shell (getRequest "/shell" [])
      = Response.mk 200 (ResponseBody.json
          (Json.obj [("enabled", Json.bool true), ("timeout", Json.num 30)])) :=
  ⟨rfl,
   ((put_then_get_returns_put_value sampleDecoders (New none) "/ssh" "/ssh"
      bodyEnabledTrue []).2.2.1 (ssh.Access.mk true) rfl).2,
   rfl,
   ((put_then_get_returns_put_value sampleDecoders (New none) "/shell" "/shell"
      bodyShellThirty []).2.2.2 (shell.Access.mk true 30) rfl).2⟩

/-- C2: for every URL argument, the handler returned by `New` has enabled false
for console-cli, dcui, ssh and shell and timeout 0 for shell, and a GET on any
of the four resources as the first request returns enabled false (and
timeout 0 for shell). -/
theorem new_handler_defaults (J : JsonDecoders) (u : Option String) (uri : String)
    (body : Body) :
    (New u).consolecli.Enabled = false ∧ (New u).dcui.Enabled = false ∧
    (New u).ssh.Enabled = false ∧ (New u).shell.Enabled = false ∧
    (New u).shell.Timeout = 0 ∧
    ((New u).Register J Resource.consolecli (getRequest uri body)).written
      = WriterCall.StatusOK (Value.bool false) ∧
    ((New u).Register J Resource.dcui (getRequest uri body)).written
      = WriterCall.StatusOK (Value.bool false) ∧
    ((New u).Register J Resource.ssh (getRequest uri body)).written
      = WriterCall.StatusOK (Value.bool false) ∧
    ((New u).Register J Resource.shell (getRequest uri body)).written
      = WriterCall.StatusOK (Value.shellAccess (shell.Access.mk false 0)) := by
  simp [register_get, Handler.setting, New]

/-- C3: for each of the four resources and every handler state, a PUT whose
body the JSON decoder rejects is answered with status 500 and an empty body,
and the handler state after the request equals the state before it. -/
theorem put_decode_failure (J : JsonDecoders) (h : Handler) (uri : String) (body : Body) :
    (∀ e : String, J.consolecli body = Except.error e →
      h.response J Resource.consolecli (putRequest uri body)
        = Response.mk 500 ResponseBody.empty ∧
      (h.consoleCLIAccess J (putRequest uri body)).handler = h) ∧
    (∀ e : String, J.dcui body = Except.error e →
      h.response J Resource.dcui (putRequest uri body)
        = Response.mk 500 ResponseBody.empty ∧
      (h.dcuiAccess J (putRequest uri body)).handler = h) ∧
    (∀ e : String, J.ssh body = Except.error e →
      h.response J Resource.ssh (putRequest uri body)
        = Response.mk 500 ResponseBody.empty ∧
      (h.sshAccess J (putRequest uri body)).handler = h) ∧
    (∀ e : String, J.shell body = Except.error e →
      h.response J Resource.shell (putRequest uri body)
        = Response.mk 500 ResponseBody.empty ∧
      (h.shellAccess J (putRequest uri body)).handler = h) := by
  refine ⟨?_, ?_, ?_, ?_⟩ <;> intro e he <;>
    simp [Handler.response, respond, Handler.Register, Handler.consoleCLIAccess,
      Handler.dcuiAccess, Handler.sshAccess, Handler.shellAccess, Handler.decode, Decode,
      putRequest, methodPut_ne_methodGet, StatusInternalServerError, he]

/-- C3 at a concrete input: a PUT of the bytes `not json` to dcui, on a handler
whose dcui access is enabled, is answered 500 and leaves the handler as it is. -/
theorem put_decode_failure_witness :
    sampleDecoders.dcui bodyMalformed = Except.error malformedError ∧
    (Handler.mk none (consolecli.Access.mk false) (dcui.Access.mk true) (ssh.Access.mk false)
        (shell.Access.mk true 30)).response sampleDecoders Resource.dcui
        (putRequest "/dcui" bodyMalformed) = Response.mk 500 ResponseBody.empty ∧
    ((Handler.mk none (consolecli.Access.mk false) (dcui.Access.mk true) (ssh.Access.mk false)
        (shell.Access.mk true 30)).dcuiAccess sampleDecoders
        (putRequest "/dcui" bodyMalformed)).handler
      = Handler.mk none (consolecli.Access.mk false) (dcui.Access.mk true) (ssh.Access.mk false)
          (shell.Access.mk true 30) :=
  ⟨rfl,
   (put_decode_failure sampleDecoders
     (Handler.mk none (consolecli.Access.mk false) (dcui.Access.mk true) (ssh.Access.mk false)
        (shell.Access.mk true 30))
     "/dcui" bodyMalformed).2.1 malformedError rfl⟩

/-- C4: last write wins. After any finite sequence of requests applied to a
handler created by `New`, a GET on a resource returns the value of the most
recent successfully decoded PUT to that resource in the sequence, or the
default (enabled false, timeout 0) when the sequence has no such PUT. -/
theorem last_write_wins (J : JsonDecoders) (u : Option String)
    (reqs : List (Resource × Request)) (r : Resource) (uri : String) (body : Body) :
    ((serveAll J (New u) reqs).Register J r (getRequest uri body)).written
      = WriterCall.StatusOK ((lastPut J r reqs).getD (defaultSetting r)) := by
  have hnew : (New u).setting r = defaultSetting r := by
    cases r <;> rfl
  rw [register_get, setting_serveAll, hnew]

/-- C4 at concrete inputs: PUT enabled=true, then PUT enabled=false, then GET on
ssh returns enabled=false; and after a sequence whose only PUT to shell is
malformed, GET on shell returns the default. -/
theorem last_write_wins_witness :
    ((serveAll sampleDecoders (New none)
        [(Resource.ssh, putRequest "/ssh" bodyEnabledTrue),
         (Resource.ssh, putRequest "/ssh" bodyEnabledFalse)]).Register sampleDecoders
        Resource.ssh (getRequest "/ssh" [])).written
      = WriterCall.StatusOK (Value.bool false) ∧
    ((serveAll sampleDecoders (New none)
        [(Resource.ssh, putRequest "/ssh" bodyEnabledTrue),
         (Resource.shell, putRequest "/shell" bodyMalformed),
         (Resource.shell, getRequest "/shell" [])]).Register sampleDecoders
        Resource.shell (getRequest "/shell" [])).written
      = WriterCall.StatusOK (Value.shellAccess (shell.Access.mk false 0)) :=
  ⟨(last_write_wins sampleDecoders none
      [(Resource.ssh, putRequest "/ssh" bodyEnabledTrue),
       (Resource.ssh, putRequest "/ssh" bodyEnabledFalse)]
      Resource.ssh "/ssh" []).trans (by decide),
   (last_write_wins sampleDecoders none
      [(Resource.ssh, putRequest "/ssh" bodyEnabledTrue),
       (Resource.shell, putRequest "/shell" bodyMalformed),
       (Resource.shell, getRequest "/shell" [])]
      Resource.shell "/shell" []).trans (by decide)⟩

/-- C5: for each of the four resources, every handler state and every request
whose method is neither GET nor PUT, the response status is 404 and the handler
state is unchanged. -/
theorem other_method_not_found (J : JsonDecoders) (h : Handler) (r : Resource)
    (request : Request) (hget : request.Method ≠ MethodGet)
    (hput : request.Method ≠ MethodPut) :
    (h.response J r request).status = 404 ∧ (h.Register J r request).handler = h := by
  cases r <;>
    simp [Handler.response, respond, StatusNotFound, Handler.Register,
      Handler.consoleCLIAccess, Handler.dcuiAccess, Handler.sshAccess, Handler.shellAccess,
      hget, hput]

/-- C5 at a concrete input: a DELETE on shell is answered 404 and leaves a new
handler as it is. -/
theorem other_method_not_found_witness :
    (Request.mk "DELETE" "/shell" bodyShellThirty).Method ≠ MethodGet ∧
    (Request.mk "DELETE" "/shell" bodyShellThirty).Method ≠ MethodPut ∧
    ((New none).response sampleDecoders Resource.shell
        (Request.mk "DELETE" "/shell" bodyShellThirty)).status = 404 ∧
    ((New none).Register sampleDecoders Resource.shell
        (Request.mk "DELETE" "/shell" bodyShellThirty)).handler = New none :=
  ⟨by decide, by decide,
   other_method_not_found sampleDecoders (New none) Resource.shell
     (Request.mk "DELETE" "/shell" bodyShellThirty) (by decide) (by decide)⟩

/-- C6: for each of the four resources and every handler state, a PUT is
answered with status 204 and no body exactly when the JSON decoder accepts its
body, and with status 500 and no body exactly when the decoder rejects it; so
the status of the answer to a PUT is always 204 or 500. -/
theorem put_status (J : JsonDecoders) (h : Handler) (uri : String) (body : Body) :
    ((h.response J Resource.consolecli (putRequest uri body) = Response.mk 204 ResponseBody.empty
        ↔ ∃ v, J.consolecli body = Except.ok v) ∧
      (h.response J Resource.consolecli (putRequest uri body) = Response.mk 500 ResponseBody.empty
        ↔ ∃ e, J.consolecli body = Except.error e) ∧
      ((h.response J Resource.consolecli (putRequest uri body)).status = 204 ∨
        (h.response J Resource.consolecli (putRequest uri body)).status = 500)) ∧
    ((h.response J Resource.dcui (putRequest uri body) = Response.mk 204 ResponseBody.empty
        ↔ ∃ v, J.dcui body = Except.ok v) ∧
      (h.response J Resource.dcui (putRequest uri body) = Response.mk 500 ResponseBody.empty
        ↔ ∃ e, J.dcui body = Except.error e) ∧
      ((h.response J Resource.dcui (putRequest uri body)).status = 204 ∨
        (h.response J Resource.dcui (putRequest uri body)).status = 500)) ∧
    ((h.response J Resource.ssh (putRequest uri body) = Response.mk 204 ResponseBody.empty
        ↔ ∃ v, J.ssh body = Except.ok v) ∧
      (h.response J Resource.ssh (putRequest uri body) = Response.mk 500 ResponseBody.empty
        ↔ ∃ e, J.ssh body = Except.error e) ∧
      ((h.response J Resource.ssh (putRequest uri body)).status = 204 ∨
        (h.response J Resource.ssh (putRequest uri body)).status = 500)) ∧
    ((h.response J Resource.shell (putRequest uri body) = Response.mk 204 ResponseBody.empty
        ↔ ∃ v, J.shell body = Except.ok v) ∧
      (h.response J Resource.shell (putRequest uri body) = Response.mk 500 ResponseBody.empty
        ↔ ∃ e, J.shell body = Except.error e) ∧
      ((h.response J Resource.shell (putRequest uri body)).status = 204 ∨
        (h.response J Resource.shell (putRequest uri body)).status = 500)) := by
  refine ⟨?_, ?_, ?_, ?_⟩
  · cases hd : J.consolecli body <;>
      simp [Handler.response, respond, Handler.Register, Handler.consoleCLIAccess,
        Handler.decode, Decode, putRequest, methodPut_ne_methodGet, StatusNoContent,
        StatusInternalServerError, hd]
  · cases hd : J.dcui body <;>
      simp [Handler.response, respond, Handler.Register, Handler.dcuiAccess,
        Handler.decode, Decode, putRequest, methodPut_ne_methodGet, StatusNoContent,
        StatusInternalServerError, hd]
  · cases hd : J.ssh body <;>
      simp [Handler.response, respond, Handler.Register, Handler.sshAccess,
        Handler.decode, Decode, putRequest, methodPut_ne_methodGet, StatusNoContent,
        StatusInternalServerError, hd]
  · cases hd : J.shell body <;>
      simp [Handler.response, respond, Handler.Register, Handler.shellAccess,
        Handler.decode, Decode, putRequest, methodPut_ne_methodGet, StatusNoContent,
        StatusInternalServerError, hd]

/-- C6 at concrete inputs: on a new handler a PUT of `{"enabled":true}` to ssh is
answered 204 with no body, and a PUT of the bytes `not json` to shell is
answered 500 with no body. -/
theorem put_status_witness :
    (New none).response sampleDecoders Resource.ssh (putRequest "/ssh" bodyEnabledTrue)
      = Response.mk 204 ResponseBody.empty ∧
    (New none).response sampleDecoders Resource.shell (putRequest "/shell" bodyMalformed)
      = Response.mk 500 ResponseBody.empty :=
  ⟨(put_status sampleDecoders (New none) "/ssh" bodyEnabledTrue).2.2.1.1.mpr
      ⟨ssh.Access.mk true, rfl⟩,
   (put_status sampleDecoders (New none) "/shell" bodyMalformed).2.2.2.2.1.mpr
      ⟨malformedError, rfl⟩⟩

/-- C7 as stated fails: on a new handler the value that a GET on console-cli
hands to the response serializer is the bare JSON literal `false`, which is not
an object and has no `enabled` member, whereas the claim asks for an object
whose `enabled` member holds the current setting. -/
theorem get_hands_object_counterexample :
    ((New none).consoleCLIAccess sampleDecoders (getRequest "/consolecli" [])).written
      = WriterCall.StatusOK (Value.bool false) ∧
    servedJson ((New none).consoleCLIAccess sampleDecoders (getRequest "/consolecli" []))
      = some (Json.bool false) ∧
    (servedJson ((New none).consoleCLIAccess sampleDecoders
        (getRequest "/consolecli" []))).bind enabledField
      ≠ some (New none).consolecli.Enabled := by
  refine ⟨rfl, rfl, ?_⟩
  simp [servedJson, Handler.consoleCLIAccess, getRequest, encode, enabledField]

/-- C7, amended: for console-cli, dcui and ssh, and every handler state, the
value a GET hands to the response serializer is the bare boolean that holds
the current enabled flag (serialized as the JSON literal, not as an object);
for shell it is the object whose `enabled` and `timeout` members hold the
current shell setting. -/
theorem get_hands_current_setting (J : JsonDecoders) (h : Handler) (uri : String)
    (body : Body) :
    ((h.consoleCLIAccess J (getRequest uri body)).written
        = WriterCall.StatusOK (Value.bool h.consolecli.Enabled) ∧
      servedJson (h.consoleCLIAccess J (getRequest uri body))
        = some (Json.bool h.consolecli.Enabled)) ∧
    ((h.dcuiAccess J (getRequest uri body)).written
        = WriterCall.StatusOK (Value.bool h.dcui.Enabled) ∧
      servedJson (h.dcuiAccess J (getRequest uri body)) = some (Json.bool h.dcui.Enabled)) ∧
    ((h.sshAccess J (getRequest uri body)).written
        = WriterCall.StatusOK (Value.bool h.ssh.Enabled) ∧
      servedJson (h.sshAccess J (getRequest uri body)) = some (Json.bool h.ssh.Enabled)) ∧
    ((h.shellAccess J (getRequest uri body)).written
        = WriterCall.StatusOK (Value.shellAccess h.shell) ∧
      servedJson (h.shellAccess J (getRequest uri body))
        = some (Json.obj
            [("enabled", Json.bool h.shell.Enabled), ("timeout", Json.num h.shell.Timeout)]) ∧
      (servedJson (h.shellAccess J (getRequest uri body))).bind enabledField
        = some h.shell.Enabled ∧
      (servedJson (h.shellAccess J (getRequest uri body))).bind timeoutField
        = some h.shell.Timeout) := by
  simp [servedJson, Handler.consoleCLIAccess, Handler.dcuiAccess, Handler.sshAccess,
    Handler.shellAccess, getRequest, encode, enabledField, timeoutField, List.lookup]

/-- C8: the four settings are independent. For every handler state and every
request (any method, any body) addressed to one resource, the settings of the
other three resources, and the URL field, are the same after the request as
before it. -/
theorem settings_independent (J : JsonDecoders) (h : Handler) (request : Request) :
    ((h.Register J Resource.consolecli request).handler.dcui = h.dcui ∧
      (h.Register J Resource.consolecli request).handler.ssh = h.ssh ∧
      (h.Register J Resource.consolecli request).handler.shell = h.shell ∧
      (h.Register J Resource.consolecli request).handler.URL = h.URL) ∧
    ((h.Register J Resource.dcui request).handler.consolecli = h.consolecli ∧
      (h.Register J Resource.dcui request).handler.ssh = h.ssh ∧
      (h.Register J Resource.dcui request).handler.shell = h.shell ∧
      (h.Register J Resource.dcui request).handler.URL = h.URL) ∧
    ((h.Register J Resource.ssh request).handler.consolecli = h.consolecli ∧
      (h.Register J Resource.ssh request).handler.dcui = h.dcui ∧
      (h.Register J Resource.ssh request).handler.shell = h.shell ∧
      (h.Register J Resource.ssh request).handler.URL = h.URL) ∧
    ((h.Register J Resource.shell request).handler.consolecli = h.consolecli ∧
      (h.Register J Resource.shell request).handler.dcui = h.dcui ∧
      (h.Register J Resource.shell request).handler.ssh = h.ssh ∧
      (h.Register J Resource.shell request).handler.URL = h.URL) := by
  cases hc : J.consolecli request.Body <;> cases hd : J.dcui request.Body <;>
    cases hs : J.ssh request.Body <;> cases hsh : J.shell request.Body <;>
    simp only [Handler.Register, Handler.consoleCLIAccess, Handler.dcuiAccess,
      Handler.sshAccess, Handler.shellAccess, Handler.decode, Decode, hc, hd, hs, hsh] <;>
    refine ⟨?_, ?_, ?_, ?_⟩ <;> split_ifs <;> simp

/-- C9: PUT is idempotent. For each of the four resources, every handler state
and every PUT request, handling the same PUT twice in a row leaves the handler
in the same state, and gives the same response, as handling it once. -/
theorem put_idempotent (J : JsonDecoders) (h : Handler) (r : Resource) (uri : String)
    (body : Body) :
    ((h.Register J r (putRequest uri body)).handler.Register J r (putRequest uri body)).handler
      = (h.Register J r (putRequest uri body)).handler ∧
    ((h.Register J r (putRequest uri body)).handler.response J r (putRequest uri body)).status
      = (h.response J r (putRequest uri body)).status ∧
    ((h.Register J r (putRequest uri body)).handler.Register J r (putRequest uri body)).written
      = (h.Register J r (putRequest uri body)).written := by
  cases r
  · cases hd : J.consolecli body <;>
      simp [Handler.response, Handler.Register, Handler.consoleCLIAccess, Handler.decode,
        Decode, putRequest, methodPut_ne_methodGet, hd]
  · cases hd : J.dcui body <;>
      simp [Handler.response, Handler.Register, Handler.dcuiAccess, Handler.decode,
        Decode, putRequest, methodPut_ne_methodGet, hd]
  · cases hd : J.ssh body <;>
      simp [Handler.response, Handler.Register, Handler.sshAccess, Handler.decode,
        Decode, putRequest, methodPut_ne_methodGet, hd]
  · cases hd : J.shell body <;>
      simp [Handler.response, Handler.Register, Handler.shellAccess, Handler.decode,
        Decode, putRequest, methodPut_ne_methodGet, hd]

/-- C10: GET is read-only. For each of the four resources and every handler
state, handling a GET leaves the whole handler state unchanged; so after any
sequence of GETs, whatever their URIs and bodies (and whatever resources they
name), the state is the same, and a further GET on a resource, with any URI and
body, returns the same value as a GET on that resource before the sequence. -/
theorem get_read_only (J : JsonDecoders) (h : Handler) (r : Resource) (uri : String)
    (body : Body) :
    (h.Register J r (getRequest uri body)).handler = h ∧
    ∀ (gets : List (Resource × String × Body)) (nextUri : String) (nextBody : Body),
      serveAll J h (gets.map fun g => (g.1, getRequest g.2.1 g.2.2)) = h ∧
      ((serveAll J h (gets.map fun g => (g.1, getRequest g.2.1 g.2.2))).Register J r
          (getRequest nextUri nextBody)).written
        = (h.Register J r (getRequest uri body)).written := by
  refine ⟨by rw [register_get], fun gets nextUri nextBody => ⟨serveAll_gets J gets h, ?_⟩⟩
  rw [serveAll_gets J gets h, register_get, register_get]

/-- C10 at a concrete input: with ssh enabled, two GETs on ssh with different
URIs and bodies, and a GET on shell between them, leave the handler as it is,
and a further GET on ssh with yet another body returns enabled=true, as the
first did. -/
theorem get_read_only_witness :
    serveAll sampleDecoders
        (Handler.mk none (consolecli.Access.mk false) (dcui.Access.mk false)
          (ssh.Access.mk true) (shell.Access.mk false 0))
        [(Resource.ssh, getRequest "/ssh" []),
         (Resource.shell, getRequest "/shell" bodyEnabledFalse),
         (Resource.ssh, getRequest "/ssh?x" bodyMalformed)]
      = Handler.mk none (consolecli.Access.mk false) (dcui.Access.mk false)
          (ssh.Access.mk true) (shell.Access.mk false 0) ∧
    ((serveAll sampleDecoders
        (Handler.mk none (consolecli.Access.mk false) (dcui.Access.mk false)
          (ssh.Access.mk true) (shell.Access.mk false 0))
        [(Resource.ssh, getRequest "/ssh" []),
         (Resource.shell, getRequest "/shell" bodyEnabledFalse),
         (Resource.ssh, getRequest "/ssh?x" bodyMalformed)]).Register sampleDecoders
        Resource.ssh (getRequest "/ssh" bodyEnabledFalse)).written
      = WriterCall.StatusOK (Value.bool true) :=
  ⟨((get_read_only sampleDecoders
        (Handler.mk none (consolecli.Access.mk false) (dcui.Access.mk false)
          (ssh.Access.mk true) (shell.Access.mk false 0))
        Resource.ssh "/ssh" []).2
      [(Resource.ssh, "/ssh", []), (Resource.shell, "/shell", bodyEnabledFalse),
       (Resource.ssh, "/ssh?x", bodyMalformed)] "/ssh" bodyEnabledFalse).1,
   (((get_read_only sampleDecoders
        (Handler.mk none (consolecli.Access.mk false) (dcui.Access.mk false)
          (ssh.Access.mk true) (shell.Access.mk false 0))
        Resource.ssh "/ssh" []).2
      [(Resource.ssh, "/ssh", []), (Resource.shell, "/shell", bodyEnabledFalse),
       (Resource.ssh, "/ssh?x", bodyMalformed)] "/ssh" bodyEnabledFalse).2).trans
      (by decide)⟩

end Simulator
